import Mathlib

/-!
Verification development for a pull-request mining pipeline.

The development shallowly embeds the three Python modules of the repository:

* `feature_extraction.py` — per-file structural/complexity metric extraction
  (`ASTMetricsVisitor`, `compute_python_metrics`, `compute_basic_metrics`),
  per-pull-request aggregation (`aggregate_file_metrics`) and keyword labels
  (`build_initial_pr_dataframe`);
* `main.py` — the resumable fetch orchestrator (`fetch_pr_list_descending`,
  `process_repository`, `_save_batch_to_separate_csv`, `_has_python_files`);
* `github_utils.py` — the per-pull-request record assembly (`fetch_single_pr`).

Machine-level conventions: Python ints are embedded as `Nat`/`Int`, Python
floats produced by exact integer arithmetic (means of metric values) as `ℚ`,
Python dicts with a fixed key vocabulary as association lists
`List (String × Option ℚ)` so that presence of a key and absence of a value
(`None`) are distinguishable, exactly as `dict.get` distinguishes them.
External collaborators (the CPython `ast` parser, `radon`, the GitHub API)
are embedded as oracle inputs: a file text is represented by the outcomes
the external analyzers produce on it, and the hosting service by the pages
and per-item payloads it returns.
-/

/-! ### Syntax trees and the metrics visitor (`feature_extraction.py`, lines 11-49)

A parsed Python module is a rose tree of nodes.  Only the node kinds the
visitor distinguishes are kept: `ast.If`, `ast.For`, `ast.While`, `ast.With`,
`ast.Try`, `ast.FunctionDef` (with its already-computed argument count
`len(args.args) + vararg + kwarg`), `ast.Call`, and everything else
(`Module`, assignments, expressions, ...). -/

inductive NodeKind : Type where
  | ifK : NodeKind
  | forK : NodeKind
  | whileK : NodeKind
  | withK : NodeKind
  | tryK : NodeKind
  | funcK : Nat → NodeKind
  | callK : NodeKind
  | otherK : NodeKind
deriving DecidableEq

mutual
inductive PyNode : Type where
  | node : NodeKind → PyForest → PyNode
deriving DecidableEq

inductive PyForest : Type where
  | nil : PyForest
  | cons : PyNode → PyForest → PyForest
deriving DecidableEq
end

/-- The `isinstance(node, (ast.If, ast.For, ast.While, ast.With, ast.Try))`
test of `ASTMetricsVisitor.generic_visit` (line 23). -/
def isNestingK : NodeKind → Bool
  | .ifK => true
  | .forK => true
  | .whileK => true
  | .withK => true
  | .tryK => true
  | _ => false

/-- The mutable fields of `ASTMetricsVisitor` (lines 12-19). -/
structure VState : Type where
  maxDepth : Nat
  currentDepth : Nat
  funcDefs : Nat
  maxFuncArgs : Nat
  totalCalls : Nat
  totalIf : Nat
  totalLoops : Nat
deriving DecidableEq

/-- `ASTMetricsVisitor.__init__` (lines 12-19). -/
def initVState : VState := ⟨0, 0, 0, 0, 0, 0, 0⟩

/-- The counter updates of the dedicated `visit_*` handlers (lines 29-49):
`visit_FunctionDef` counts a definition and folds in its argument count,
`visit_Call` counts a call, `visit_If` a conditional, `visit_For` and
`visit_While` a loop; node kinds without a handler update no counter. -/
def countK (s : VState) : NodeKind → VState
  | .funcK nargs =>
      { s with funcDefs := s.funcDefs + 1, maxFuncArgs := max s.maxFuncArgs nargs }
  | .callK => { s with totalCalls := s.totalCalls + 1 }
  | .ifK => { s with totalIf := s.totalIf + 1 }
  | .forK => { s with totalLoops := s.totalLoops + 1 }
  | .whileK => { s with totalLoops := s.totalLoops + 1 }
  | _ => s

mutual
/-- One `visit` dispatch (lines 21-49): the kind-specific handler updates its
counter, then `generic_visit` saves the depth, increments it for nesting
constructs (recording the running maximum), visits the children, and restores
the saved depth. -/
def visitNode (s : VState) : PyNode → VState
  | .node k f =>
      let s1 := countK s k
      let old := s1.currentDepth
      let s2 :=
        if isNestingK k then
          { s1 with currentDepth := old + 1, maxDepth := max s1.maxDepth (old + 1) }
        else s1
      let s3 := visitForest s2 f
      { s3 with currentDepth := old }

/-- `super().generic_visit(node)` visits each child in order (line 26). -/
def visitForest (s : VState) : PyForest → VState
  | .nil => s
  | .cons n f => visitForest (visitNode s n) f
end

/-! ### Specification-side nesting depth

`specNesting` follows the spec's words: the maximum simultaneous nesting
depth of conditional / loop / exception-handling / resource-scope constructs
along any root-to-leaf path — one unit for the construct itself plus the
deepest nesting among its children, and the maximum over siblings. -/

mutual
/-- Modelled from the spec: maximum simultaneous nesting depth of nesting
constructs along any path through the tree. -/
def specNesting : PyNode → Nat
  | .node k f => (if isNestingK k then 1 else 0) + specForest f

/-- Maximum of `specNesting` over a forest of siblings. -/
def specForest : PyForest → Nat
  | .nil => 0
  | .cons n f => max (specNesting n) (specForest f)
end

/-! ### File texts and `compute_python_metrics` (lines 52-91)

A file text on the Python-parser path is embedded by the outcomes of the
three independent external analyses performed on it: `ast.parse` (a tree, or
an exception), `radon.raw.analyze` (six line counts, or an exception) and
`radon.complexity.cc_visit` (a list of per-function complexity scores, or an
exception).  `none` means the corresponding `try` block raised. -/

structure RawMetrics : Type where
  loc : Nat
  lloc : Nat
  sloc : Nat
  comments : Nat
  multi : Nat
  blank : Nat
deriving DecidableEq

structure FileText : Type where
  parseResult : Option PyNode
  rawResult : Option RawMetrics
  ccResult : Option (List ℚ)

/-- A metric record: a Python dict with `String` keys whose values are either
a number or `None`. -/
abbrev MetricRecord : Type := List (String × Option ℚ)

/-- The first `try` block of `compute_python_metrics` (lines 53-67): on a
successful parse the six structural counters of the visitor, on a parse
error `None` for all six keys. -/
def astPart : Option PyNode → MetricRecord
  | some tree =>
      let v := visitNode initVState tree
      [("max_nesting", some (v.maxDepth : ℚ)),
       ("func_count", some (v.funcDefs : ℚ)),
       ("max_args", some (v.maxFuncArgs : ℚ)),
       ("call_count", some (v.totalCalls : ℚ)),
       ("if_count", some (v.totalIf : ℚ)),
       ("loop_count", some (v.totalLoops : ℚ))]
  | none =>
      [("max_nesting", none), ("func_count", none), ("max_args", none),
       ("call_count", none), ("if_count", none), ("loop_count", none)]

/-- The third `try` block (lines 75-81): mean and maximum of the per-function
complexity scores, `None` when there are no functions or `cc_visit` raised. -/
def ccPart : Option (List ℚ) → MetricRecord
  | some scores =>
      match scores with
      | [] => [("avg_cc", none), ("max_cc", none)]
      | x :: xs =>
          [("avg_cc", some ((x :: xs).sum / ((x :: xs).length : ℚ))),
           ("max_cc", some (xs.foldl max x))]
  | none => [("avg_cc", none), ("max_cc", none)]

/-- The second `try` block (lines 69-73): the six `radon` raw line counts, all
of them `None` together when `raw_analyze` raised. -/
def rawPart : Option RawMetrics → MetricRecord
  | some r =>
      [("loc", some (r.loc : ℚ)), ("lloc", some (r.lloc : ℚ)),
       ("sloc", some (r.sloc : ℚ)), ("comments", some (r.comments : ℚ)),
       ("multi_comments", some (r.multi : ℚ)), ("blank", some (r.blank : ℚ))]
  | none =>
      [("loc", none), ("lloc", none), ("sloc", none), ("comments", none),
       ("multi_comments", none), ("blank", none)]

/-- `compute_python_metrics` (lines 52-91): the merged dict
`{**ast_metrics, "avg_cc": ..., "max_cc": ..., "loc": ..., ..., "blank": ...}`
in its construction order. -/
def compute_python_metrics (ft : FileText) : MetricRecord :=
  astPart ft.parseResult ++ ccPart ft.ccResult ++ rawPart ft.rawResult

/-! ### The heuristic path, `compute_basic_metrics` (lines 94-103) -/

/-- Python `str.splitlines` restricted to the newline character: lines are
cut at each newline and a trailing newline produces no final empty line. -/
def splitlinesChars : List Char → List (List Char)
  | [] => []
  | c :: rest =>
      match splitlinesChars rest with
      | [] => if c = '\n' then [[]] else [[c]]
      | l :: ls => if c = '\n' then [] :: l :: ls else (c :: l) :: ls

/-- Python `str.strip`: remove leading and trailing whitespace. -/
def stripChars (l : List Char) : List Char :=
  ((l.dropWhile Char.isWhitespace).reverse.dropWhile Char.isWhitespace).reverse

/-- Leading-characters test used to embed `str.startswith`. -/
def beginsWith : List Char → List Char → Bool
  | [], _ => true
  | _ :: _, [] => false
  | p :: ps, c :: cs => p == c && beginsWith ps cs

/-- `l.strip().startswith(("#", "//", "/*", "*"))` (line 98). -/
def isCommentLine (l : List Char) : Bool :=
  beginsWith ['#'] (stripChars l) || beginsWith ['/', '/'] (stripChars l) ||
    beginsWith ['/', '*'] (stripChars l) || beginsWith ['*'] (stripChars l)

/-- `compute_basic_metrics` (lines 94-103): heuristic line classification for
files that are not on the Python-parser path.  The returned dict is embedded
key for key in its construction order. -/
def compute_basic_metrics (content : String) : MetricRecord :=
  let lines := splitlinesChars content.toList
  let loc := lines.length
  let blank := (lines.filter (fun l => stripChars l = [])).length
  let comments := (lines.filter isCommentLine).length
  let sloc : ℚ := (loc : ℚ) - (blank : ℚ) - (comments : ℚ)
  [("loc", some (loc : ℚ)), ("sloc", some sloc), ("blank", some (blank : ℚ)),
   ("comments", some (comments : ℚ)), ("multi_comments", none),
   ("max_nesting", none), ("func_count", none), ("max_args", none),
   ("call_count", none), ("if_count", none), ("loop_count", none),
   ("avg_cc", none), ("max_cc", none)]

/-! ### The aggregator, `aggregate_file_metrics` (lines 106-122) -/

/-- The fixed key vocabulary of lines 107-108, which coincides with the key
construction order of `compute_python_metrics`. -/
def metricKeys : List String :=
  ["max_nesting", "func_count", "max_args", "call_count", "if_count",
   "loop_count", "avg_cc", "max_cc", "loc", "lloc", "sloc", "comments",
   "multi_comments", "blank"]

/-- Python `f.get(key)` on a metric record: `none` both when the key is
missing and when it is stored with value `None`. -/
def recordGet (f : MetricRecord) (k : String) : Option ℚ :=
  (List.lookup k f).join

/-- Line 114: `[f.get(key) for f in files_metrics if f.get(key) is not None]`. -/
def presentValues (files : List MetricRecord) (k : String) : List ℚ :=
  files.filterMap (fun f => recordGet f k)

/-- The per-key body of the `for key in keys` loop (lines 113-120):
`(min(values), float(np.mean(values)), max(values))` when the sample is
non-empty, otherwise three absent values. -/
def aggForKey (files : List MetricRecord) (k : String) :
    Option ℚ × Option ℚ × Option ℚ :=
  match presentValues files k with
  | [] => (none, none, none)
  | x :: xs =>
      (some (xs.foldl min x),
       some ((x :: xs).sum / (((x :: xs).length : ℚ))),
       some (xs.foldl max x))

/-- `aggregate_file_metrics` (lines 106-122).  The input is
`pr.get("files_metrics", []) or []`: a missing or `None` list is replaced by
the empty list, which the `Option` input captures. -/
def aggregate_file_metrics (files_metrics : Option (List MetricRecord)) :
    MetricRecord :=
  let files := files_metrics.getD []
  (metricKeys.map (fun k =>
    let a := aggForKey files k
    [("min_" ++ k, a.1), ("avg_" ++ k, a.2.1), ("max_" ++ k, a.2.2)])).flatten

/-! ### Keyword labels (`build_initial_pr_dataframe`, lines 154-172)

The three label vocabularies are lists of patterns of the shape
`\bword\b`: a case-insensitive whole-word match.  The embedding keeps the
bare word and gives `\b...\b` its regex semantics directly: the word occurs
in the text with no word character (`[A-Za-z0-9_]` for the ASCII titles at
hand) immediately before or after the occurrence. -/

def isWordChar (c : Char) : Bool := c.isAlphanum || c == '_'

/-- The pattern matches at the current position and the character following
the occurrence (if any) is not a word character — the trailing `\b`. -/
def matchWordHere : List Char → List Char → Bool
  | [], [] => true
  | [], c :: _ => !isWordChar c
  | _ :: _, [] => false
  | w :: ws, c :: cs => w == c && matchWordHere ws cs

/-- The leading `\b`: the character before the candidate position (tracked
while scanning) is absent or not a word character. -/
def prevOk : Option Char → Bool
  | none => true
  | some c => !isWordChar c

/-- `re.search` for a `\bword\b` pattern: scan every position of the text. -/
def searchFrom (w : List Char) : Option Char → List Char → Bool
  | prev, [] => prevOk prev && matchWordHere w []
  | prev, c :: rest =>
      (prevOk prev && matchWordHere w (c :: rest)) || searchFrom w (some c) rest

/-- `re.search(p, text_lower)` for one whole-word pattern `p`. -/
def reSearchWord (pat : String) (cs : List Char) : Bool :=
  searchFrom pat.toList none cs

/-- `text.lower()` (ASCII lowering suffices for the embedded vocabularies). -/
def lowerChars (s : String) : List Char := s.toList.map Char.toLower

/-- `contains_keywords_regex` (lines 155-159): `0` for a falsy title (absent
or empty), else `int(any(re.search(p, text.lower()) for p in patterns))`. -/
def contains_keywords_regex (text : Option String) (patterns : List String) : Nat :=
  match text with
  | none => 0
  | some s =>
      if s = "" then 0
      else if patterns.any (fun p => reSearchWord p (lowerChars s)) then 1 else 0

/-- `bugfix_patterns` (lines 161-164), each `\b...\b` wrapper stripped. -/
def bugfix_patterns : List String :=
  ["fix", "bug", "error", "issue", "fixes", "bugs", "errors", "issues",
   "fixing", "fixed", "problem", "patch", "correct", "resolve", "resolved",
   "hotfix"]

/-- `refactor_patterns` (lines 165-166). -/
def refactor_patterns : List String :=
  ["refactor", "cleanup", "refactored", "cleaning", "refactoring", "rewrite",
   "restructured", "modularize"]

/-- `feature_patterns` (lines 167-168). -/
def feature_patterns : List String :=
  ["add", "feature", "implement", "introduce", "create", "new", "upgrade",
   "enable", "improve"]

/-- Lines 170-172: the three labels, each computed independently from the
same title. -/
def prLabels (title : Option String) : Nat × Nat × Nat :=
  (contains_keywords_regex title bugfix_patterns,
   contains_keywords_regex title refactor_patterns,
   contains_keywords_regex title feature_patterns)

/-! Specification-side whole-word occurrence, used to check that the scanning
search implements it. -/

/-- The optional character is absent or not a word character. -/
def BoundOk : Option Char → Prop
  | none => True
  | some c => isWordChar c = false

/-- The character standing immediately before the occurrence: the last
character of the material to the left of it, or, when the occurrence starts
the scanned suffix, the scan's predecessor character. -/
def lastOr (prev : Option Char) (pre : List Char) : Option Char :=
  match pre.getLast? with
  | some c => some c
  | none => prev

/-- Modelled from the spec: the word occurs somewhere in the text with a
word boundary on each side. -/
def WholeWordMatch (w cs : List Char) : Prop :=
  ∃ pre post, cs = pre ++ w ++ post ∧ BoundOk (lastOr none pre) ∧
    BoundOk post.head?

/-! ### Record assembly, `fetch_single_pr` (`github_utils.py`, lines 88-104)

The claims about this function concern the scalar head of the assembled
dict (lines 92-104); the raw pull request delivered by the hosting service
is embedded by the fields that assembly reads. -/

structure RawPR : Type where
  number : Nat
  title : Option String
  body : Option String
  createdAt : Option String
  closedAt : Option String
  mergedAt : Option String
  additions : Option Nat
  deletions : Option Nat
  changedFiles : Option Nat
  commits : Option Nat
  userLogin : Option String
deriving DecidableEq

/-- Python `x or None` for a string field: `None` and the empty string both
collapse to `None`. -/
def strOrNone : Option String → Option String
  | none => none
  | some s => if s = "" then none else some s

/-- Python `x or -1` for a count field: `None` and `0` are both falsy and
collapse to the sentinel `-1`. -/
def orNeg1 : Option Nat → Int
  | none => -1
  | some n => if n = 0 then -1 else (n : Int)

/-- The scalar part of the dict assembled by `fetch_single_pr`
(lines 92-104). -/
structure PRScalarRecord : Type where
  number : Nat
  title : Option String
  body : Option String
  created_at : Option String
  closed_at : Option String
  merged_at : Option String
  additions : Int
  deletions : Int
  changed_files : Int
  commits : Int
  author : Option String
deriving DecidableEq

/-- Lines 92-104 of `github_utils.py`: the assembly of the scalar fields of
`pr_dict` (timestamps are embedded as the opaque strings `isoformat`
produces). -/
def fetch_single_pr_scalars (pr : RawPR) : PRScalarRecord :=
  { number := pr.number
    title := strOrNone pr.title
    body := strOrNone pr.body
    created_at := pr.createdAt
    closed_at := pr.closedAt
    merged_at := pr.mergedAt
    additions := orNeg1 pr.additions
    deletions := orNeg1 pr.deletions
    changed_files := orNeg1 pr.changedFiles
    commits := orNeg1 pr.commits
    author := pr.userLogin }

/-! ### The fetch orchestrator (`main.py`)

The hosting service is embedded as an environment: the paginated listing of
closed pull requests (in the order the service returns them), the outcome of
each per-item enrichment fetch, and the outcome of each batch write.  One
pull-request summary of the listing carries its number and the merge
timestamp used by the client-side filters. -/

/-- Configuration constants of `main.py` (lines 30-32). -/
def TARGET_PRS_WITH_PYTHON : Nat := 2500

/-- `FETCH_BATCH_SIZE` (line 31). -/
def FETCH_BATCH_SIZE : Nat := 200

/-- `SAVE_EVERY` (line 32). -/
def SAVE_EVERY : Nat := 25

/-- One entry of the pull-request listing: `pr.number` and `pr.merged_at`. -/
structure PRSumm : Type where
  number : Nat
  mergedAt : Option String
deriving DecidableEq

/-- One enriched pull-request dict as far as the orchestrator inspects it:
its number and its `files_metrics` list of filenames (`None` when the file
fetch block failed, cf. `github_utils.py` line 154). -/
structure PRData : Type where
  number : Nat
  files : Option (List String)
deriving DecidableEq

/-- The hosting-service environment: the listing pages, the per-item
enrichment outcome (`none` embeds an exception escaping `fetch_single_pr`,
which line 174 of `main.py` catches), and the success of the `n`-th batch
write (indexed by the value of `csv_file_counter` for that attempt, which is
unique because the counter is incremented before every attempt). -/
structure Env : Type where
  pages : List (List PRSumm)
  fetchFiles : Nat → Option (Option (List String))
  saveOk : Nat → Bool

/-- The client-side filters of `fetch_pr_list_descending` (lines 52-59):
keep a listed pull request when its number is below the resumption cursor
(or no cursor is set) and it is not merged. -/
def keepListed (cursor : Option Int) (pr : PRSumm) : Bool :=
  (match cursor with
   | none => true
   | some c => decide ((pr.number : Int) < c)) && pr.mergedAt == none

/-- Python `min` over a non-empty list of numbers (the empty case is never
reached at the call sites). -/
def pyMinNat : List Nat → Nat
  | [] => 0
  | x :: xs => xs.foldl min x

/-- The page loop of `fetch_pr_list_descending` (lines 47-67): request
successive pages while fewer than `maxPrs` items are kept, stop at the first
empty page, and keep from each page the filtered items up to the limit. -/
def fetchPages (cursor : Option Int) (maxPrs : Nat) :
    List (List PRSumm) → List PRSumm → List PRSumm
  | [], acc => acc
  | page :: rest, acc =>
      if maxPrs ≤ acc.length then acc
      else if page = [] then acc
      else
        let kept := page.filter (keepListed cursor)
        let acc2 := acc ++ kept.take (maxPrs - acc.length)
        fetchPages cursor maxPrs rest acc2

/-- `fetch_pr_list_descending` (lines 38-71) as seen from
`process_repository`: the listing restricted below the cursor, unmerged,
capped at `FETCH_BATCH_SIZE`. -/
def fetch_pr_list_descending (env : Env) (cursor : Option Int) : List PRSumm :=
  fetchPages cursor FETCH_BATCH_SIZE env.pages []

/-- Python `str.endswith`: the suffix characters close the string. -/
def strEndsWith (s suffix : String) : Bool :=
  beginsWith suffix.toList.reverse s.toList.reverse

/-- `_has_python_files` (lines 265-272): false when `files_metrics` is
missing, `None` or empty, else true exactly when some filename ends in
`.py`. -/
def hasPythonFiles (d : PRData) : Bool :=
  match d.files with
  | none => false
  | some fs => fs.any (fun f => strEndsWith f ".py")

/-- One durable checkpoint write (`_save_metadata`, lines 160-165 and
188-193): the four persisted fields. -/
structure Ckpt : Type where
  processed : List Nat
  counter : Nat
  csvCounter : Nat
  cursor : Option Int
deriving DecidableEq

/-- The orchestrator state of `process_repository`, together with the
observable traces the claims talk about: the successfully written batches,
the durable checkpoint writes, the numbers submitted to the worker pool, and
the successive listing-pass results. -/
structure OrchState : Type where
  cursor : Option Int
  processed : List Nat
  counter : Nat
  csvCounter : Nat
  batch : List PRData
  saved : List (List PRData)
  ckpts : List Ckpt
  dispatched : List Nat
  passes : List (List PRSumm)
  skippedNoPython : Nat
  done : Bool
deriving DecidableEq

/-- The state at the top of `process_repository` (lines 85-102): checkpoint
fields loaded from metadata, an empty in-memory batch and empty traces. -/
def initState (cursor : Option Int) (processed : List Nat)
    (counter csvCounter : Nat) : OrchState :=
  { cursor := cursor, processed := processed, counter := counter,
    csvCounter := csvCounter, batch := [], saved := [], ckpts := [],
    dispatched := [], passes := [], skippedNoPython := 0, done := false }

/-- The batch-write block shared by lines 147-169 and 178-195: increment
`csv_file_counter`, attempt `_save_batch_to_separate_csv`, and only on a
positive row count move the cursor to the minimum number of the written
batch, durably write the checkpoint and clear the buffer.  A failed write
changes nothing but the (in-memory) counter. -/
def doSave (env : Env) (st : OrchState) : OrchState :=
  let csv2 := st.csvCounter + 1
  if env.saveOk csv2 && !st.batch.isEmpty then
    let low : Int := (pyMinNat (st.batch.map (fun d => d.number)) : Int)
    { st with
        csvCounter := csv2,
        cursor := some low,
        ckpts := st.ckpts ++
          [{ processed := st.processed, counter := st.counter,
             csvCounter := csv2, cursor := some low }],
        saved := st.saved ++ [st.batch],
        batch := [] }
  else { st with csvCounter := csv2 }

/-- The per-completed-item block (lines 134-175): an enrichment exception
drops the item (still unprocessed, retried on a later run); an item without
Python files is marked processed, counted as skipped and excluded from the
batch; otherwise the record joins the batch, the item is marked processed,
the satisfied-target counter grows, and a full buffer triggers a batch
write. -/
def handleItem (env : Env) (st : OrchState) (n : Nat) : OrchState :=
  match env.fetchFiles n with
  | none => st
  | some files =>
      let d : PRData := { number := n, files := files }
      if !hasPythonFiles d then
        { st with processed := n :: st.processed,
                  skippedNoPython := st.skippedNoPython + 1 }
      else
        let st2 := { st with batch := st.batch ++ [d],
                             processed := n :: st.processed,
                             counter := st.counter + 1 }
        if SAVE_EVERY ≤ st2.batch.length then doSave env st2 else st2

/-- The collection loop over completed futures (lines 128-175), with the
early exit of lines 171-172 once the target is reached (completion order is
not observable through the claims; the submission order is used). -/
def processItems (env : Env) : OrchState → List PRSumm → OrchState
  | st, [] => st
  | st, pr :: rest =>
      let st2 := handleItem env st pr.number
      if TARGET_PRS_WITH_PYTHON ≤ st2.counter then st2
      else processItems env st2 rest

/-- Lines 177-195: after the collection loop, a non-empty remaining buffer is
written out unless the target has been reached. -/
def saveRemaining (env : Env) (st : OrchState) : OrchState :=
  if st.batch ≠ [] ∧ st.counter < TARGET_PRS_WITH_PYTHON then doSave env st else st

/-- Lines 197-201: when the buffer is empty and some identifiers were
processed, the cursor is lowered to the minimum processed identifier if that
is an improvement. -/
def lowerCursorFromProcessed (st : OrchState) : OrchState :=
  if st.processed ≠ [] ∧ st.batch = [] then
    match st.cursor with
    | none => { st with cursor := some ((pyMinNat st.processed : Int)) }
    | some c =>
        if (pyMinNat st.processed : Int) < c then
          { st with cursor := some ((pyMinNat st.processed : Int)) }
        else st
  else st

/-- One iteration of the `while` loop of `process_repository`
(lines 104-204): list a batch of candidates, stop at an empty listing,
deduplicate against the processed set, lower the cursor and retry when
nothing new came back, otherwise dispatch the new items, flush a remaining
buffer, lower the cursor from the processed set when the buffer is empty,
and stop once the target is reached.  `Sum.inl` continues the loop,
`Sum.inr` leaves it. -/
def loopIter (env : Env) (st : OrchState) : OrchState ⊕ OrchState :=
  let prObjs := fetch_pr_list_descending env st.cursor
  let st1 := { st with passes := st.passes ++ [prObjs] }
  if prObjs = [] then .inr { st1 with done := true }
  else
    let newObjs := prObjs.filter (fun pr => decide (pr.number ∉ st1.processed))
    if newObjs = [] then
      .inl { st1 with
               cursor := some ((pyMinNat (prObjs.map (fun pr => pr.number)) : Int) - 1) }
    else
      let st2 := { st1 with dispatched := st1.dispatched ++ newObjs.map (fun pr => pr.number) }
      let st5 := lowerCursorFromProcessed (saveRemaining env (processItems env st2 newObjs))
      if TARGET_PRS_WITH_PYTHON ≤ st5.counter then .inr { st5 with done := true }
      else .inl st5

/-- The `while processed_with_python < TARGET_PRS_WITH_PYTHON` loop
(line 104), fuelled: with exhausted fuel the current state is returned with
`done` still unset, so a returned `done = true` means the loop really
finished. -/
def runLoop (env : Env) : Nat → OrchState → OrchState
  | 0, st => st
  | fuel + 1, st =>
      if st.counter < TARGET_PRS_WITH_PYTHON then
        match loopIter env st with
        | .inl st2 => runLoop env fuel st2
        | .inr st2 => st2
      else { st with done := true }

/-- The key construction order of `compute_basic_metrics` (lines 100-103). -/
def basicMetricKeys : List String :=
  ["loc", "sloc", "blank", "comments", "multi_comments", "max_nesting",
   "func_count", "max_args", "call_count", "if_count", "loop_count",
   "avg_cc", "max_cc"]

/-- The resumption invariant of a run started from a checkpoint with cursor
`C` and processed-set `P`: the cursor only moved downward from `C`, the
processed set still covers `P`, and every record buffered, persisted or
dispatched so far has an identifier below `C` and outside `P`. -/
def StInv (C : Int) (P : List Nat) (st : OrchState) : Prop :=
  (∃ c, st.cursor = some c ∧ c ≤ C) ∧
    (∀ n ∈ P, n ∈ st.processed) ∧
    (∀ d ∈ st.batch, (d.number : Int) < C ∧ d.number ∉ P) ∧
    (∀ b ∈ st.saved, ∀ d ∈ b, (d.number : Int) < C ∧ d.number ∉ P) ∧
    (∀ n ∈ st.dispatched, (n : Int) < C)

/-! ### Theorems -/

theorem countK_depth (s : VState) (k : NodeKind) :
    (countK s k).currentDepth = s.currentDepth ∧ (countK s k).maxDepth = s.maxDepth := by
  cases k <;> simp [countK]

/-- C1 (claim as stated is refuted): the heuristic extractor path omits the
`lloc` key from the returned record altogether, so the record of any file on
that path — here the one-line content `"x = 1"` of a non-`.py` file — does
not contain all 14 metric keys. -/
theorem c1_counterexample :
    "lloc" ∈ metricKeys ∧
      "lloc" ∉ (compute_basic_metrics "x = 1").map Prod.fst := by
  constructor
  · decide
  · intro h
    simp [compute_basic_metrics, metricKeys] at h

/-- C1 (amended): the Python-parser path returns a record with exactly the 14
metric keys in their construction order, each mapped to a value or to the
absent marker, and the extractor is a total function on file texts; the
heuristic path returns a record with exactly 13 of the 14 keys — all except
`lloc`, which is omitted from the key set rather than mapped to the absent
marker. -/
theorem c1_metric_key_sets :
    (∀ ft : FileText, (compute_python_metrics ft).map Prod.fst = metricKeys) ∧
      (∀ c : String, (compute_basic_metrics c).map Prod.fst = basicMetricKeys) ∧
      basicMetricKeys.toFinset = metricKeys.toFinset.erase "lloc" := by
  refine ⟨fun ft => ?_, fun c => rfl, by decide⟩
  obtain ⟨p, r, cc⟩ := ft
  cases p <;> cases r <;>
    (cases cc with
     | none => rfl
     | some l => cases l <;> rfl)

theorem orNeg1_eq_neg1 (o : Option Nat) :
    orNeg1 o = -1 ↔ o = none ∨ o = some 0 := by
  cases o with
  | none => simp [orNeg1]
  | some n =>
      by_cases h : n = 0
      · simp [orNeg1, h]
      · simp only [orNeg1, if_neg h]
        constructor
        · intro hv
          exfalso
          omega
        · rintro (hv | hv) <;> simp_all

/-- C10: in the assembled record every one of the four count fields
(additions, deletions, changed-file count, commit count) stores the sentinel
`-1` exactly when the raw field is absent or zero, so a genuine zero count is
indistinguishable from missing data: substituting a raw zero for a raw
absent value yields the identical record. -/
theorem c10_falsy_counts_sentinel :
    ∀ pr : RawPR,
      ((fetch_single_pr_scalars pr).additions = -1 ↔
        pr.additions = none ∨ pr.additions = some 0) ∧
      ((fetch_single_pr_scalars pr).deletions = -1 ↔
        pr.deletions = none ∨ pr.deletions = some 0) ∧
      ((fetch_single_pr_scalars pr).changed_files = -1 ↔
        pr.changedFiles = none ∨ pr.changedFiles = some 0) ∧
      ((fetch_single_pr_scalars pr).commits = -1 ↔
        pr.commits = none ∨ pr.commits = some 0) ∧
      fetch_single_pr_scalars { pr with additions := some 0 } =
        fetch_single_pr_scalars { pr with additions := none } ∧
      fetch_single_pr_scalars { pr with deletions := some 0 } =
        fetch_single_pr_scalars { pr with deletions := none } ∧
      fetch_single_pr_scalars { pr with changedFiles := some 0 } =
        fetch_single_pr_scalars { pr with changedFiles := none } ∧
      fetch_single_pr_scalars { pr with commits := some 0 } =
        fetch_single_pr_scalars { pr with commits := none } := by
  intro pr
  exact ⟨orNeg1_eq_neg1 pr.additions, orNeg1_eq_neg1 pr.deletions,
    orNeg1_eq_neg1 pr.changedFiles, orNeg1_eq_neg1 pr.commits,
    rfl, rfl, rfl, rfl⟩

/-- C3: on the Python-parser path a parse error yields the absent marker for
all six structural fields together — no partial structural results — and the
three analysis subgroups degrade independently: a raw-line-analysis failure
blanks exactly the six line-count fields and a complexity failure exactly
the two complexity fields, each without touching the others. -/
theorem c3_parse_failure_all_absent :
    ∀ ft : FileText,
      (ft.parseResult = none →
        List.lookup "max_nesting" (compute_python_metrics ft) = some none ∧
        List.lookup "func_count" (compute_python_metrics ft) = some none ∧
        List.lookup "max_args" (compute_python_metrics ft) = some none ∧
        List.lookup "call_count" (compute_python_metrics ft) = some none ∧
        List.lookup "if_count" (compute_python_metrics ft) = some none ∧
        List.lookup "loop_count" (compute_python_metrics ft) = some none) ∧
      (ft.rawResult = none →
        List.lookup "loc" (compute_python_metrics ft) = some none ∧
        List.lookup "lloc" (compute_python_metrics ft) = some none ∧
        List.lookup "sloc" (compute_python_metrics ft) = some none ∧
        List.lookup "comments" (compute_python_metrics ft) = some none ∧
        List.lookup "multi_comments" (compute_python_metrics ft) = some none ∧
        List.lookup "blank" (compute_python_metrics ft) = some none) ∧
      (ft.ccResult = none →
        List.lookup "avg_cc" (compute_python_metrics ft) = some none ∧
        List.lookup "max_cc" (compute_python_metrics ft) = some none) := by
  intro ft
  obtain ⟨p, r, cc⟩ := ft
  refine ⟨fun h => ?_, fun h => ?_, fun h => ?_⟩
  · cases p with
    | some t => simp at h
    | none =>
        cases r <;>
          (cases cc with
           | none => exact ⟨rfl, rfl, rfl, rfl, rfl, rfl⟩
           | some l => cases l <;> exact ⟨rfl, rfl, rfl, rfl, rfl, rfl⟩)
  · cases r with
    | some rm => simp at h
    | none =>
        cases p <;>
          (cases cc with
           | none => exact ⟨rfl, rfl, rfl, rfl, rfl, rfl⟩
           | some l => cases l <;> exact ⟨rfl, rfl, rfl, rfl, rfl, rfl⟩)
  · cases cc with
    | some l => simp at h
    | none => cases p <;> cases r <;> exact ⟨rfl, rfl⟩

/-- Witness for C3 at a file text whose three analyses all failed. -/
theorem c3_parse_failure_all_absent_witness :
    List.lookup "max_nesting" (compute_python_metrics ⟨none, none, none⟩) = some none ∧
    List.lookup "func_count" (compute_python_metrics ⟨none, none, none⟩) = some none ∧
    List.lookup "max_args" (compute_python_metrics ⟨none, none, none⟩) = some none ∧
    List.lookup "call_count" (compute_python_metrics ⟨none, none, none⟩) = some none ∧
    List.lookup "if_count" (compute_python_metrics ⟨none, none, none⟩) = some none ∧
    List.lookup "loop_count" (compute_python_metrics ⟨none, none, none⟩) = some none :=
  (c3_parse_failure_all_absent ⟨none, none, none⟩).1 rfl


theorem nat_max_merge (m c dn df : Nat) :
    max (max m (c + dn)) (c + df) = max m (c + max dn df) := by
  rw [max_assoc, max_add_add_left]

theorem nat_max_nest (m c df : Nat) :
    max (max m (c + 1)) (c + 1 + df) = max m (c + (1 + df)) := by
  rw [max_assoc, Nat.max_eq_right (Nat.le_add_right _ _), Nat.add_assoc]

mutual
theorem visitNode_depth (n : PyNode) :
    ∀ s : VState, s.currentDepth ≤ s.maxDepth →
      (visitNode s n).currentDepth = s.currentDepth ∧
        (visitNode s n).maxDepth = max s.maxDepth (s.currentDepth + specNesting n) := by
  cases n with
  | node k f =>
      intro s hs
      obtain ⟨hc, hm⟩ := countK_depth s k
      by_cases hk : isNestingK k = true
      · obtain ⟨h2c, h2m⟩ := visitForest_depth f
          { countK s k with
            currentDepth := (countK s k).currentDepth + 1,
            maxDepth := max (countK s k).maxDepth ((countK s k).currentDepth + 1) }
          (le_max_right _ _)
        refine ⟨hc, ?_⟩
        have hL : (visitNode s (.node k f)).maxDepth =
            (visitForest
              (if isNestingK k then
                { countK s k with
                  currentDepth := (countK s k).currentDepth + 1,
                  maxDepth := max (countK s k).maxDepth ((countK s k).currentDepth + 1) }
               else countK s k) f).maxDepth := rfl
        rw [hL, if_pos hk, h2m]
        show max (max (countK s k).maxDepth ((countK s k).currentDepth + 1))
            (((countK s k).currentDepth + 1) + specForest f)
          = max s.maxDepth (s.currentDepth + specNesting (.node k f))
        rw [hm, hc]
        have hspec : specNesting (.node k f) = 1 + specForest f := by
          simp [specNesting, hk]
        rw [hspec]
        exact nat_max_nest s.maxDepth s.currentDepth (specForest f)
      · obtain ⟨h2c, h2m⟩ := visitForest_depth f (countK s k) (by rw [hc, hm]; exact hs)
        refine ⟨hc, ?_⟩
        have hL : (visitNode s (.node k f)).maxDepth =
            (visitForest
              (if isNestingK k then
                { countK s k with
                  currentDepth := (countK s k).currentDepth + 1,
                  maxDepth := max (countK s k).maxDepth ((countK s k).currentDepth + 1) }
               else countK s k) f).maxDepth := rfl
        rw [hL, if_neg hk, h2m, hc, hm]
        have hspec : specNesting (.node k f) = 0 + specForest f := by
          simp [specNesting, hk]
        rw [hspec, Nat.zero_add]

theorem visitForest_depth (f : PyForest) :
    ∀ s : VState, s.currentDepth ≤ s.maxDepth →
      (visitForest s f).currentDepth = s.currentDepth ∧
        (visitForest s f).maxDepth = max s.maxDepth (s.currentDepth + specForest f) := by
  cases f with
  | nil =>
      intro s hs
      refine ⟨rfl, ?_⟩
      show s.maxDepth = max s.maxDepth (s.currentDepth + specForest .nil)
      have hspec : specForest .nil = 0 := rfl
      rw [hspec, Nat.add_zero, Nat.max_eq_left hs]
  | cons n f =>
      intro s hs
      obtain ⟨h1c, h1m⟩ := visitNode_depth n s hs
      obtain ⟨h2c, h2m⟩ := visitForest_depth f (visitNode s n)
        (by rw [h1c, h1m]; exact le_trans (Nat.le_add_right _ _) (le_max_right _ _))
      refine ⟨?_, ?_⟩
      · show (visitForest (visitNode s n) f).currentDepth = s.currentDepth
        rw [h2c, h1c]
      · show (visitForest (visitNode s n) f).maxDepth
          = max s.maxDepth (s.currentDepth + specForest (.cons n f))
        rw [h2m, h1m, h1c]
        have hspec : specForest (.cons n f) = max (specNesting n) (specForest f) := rfl
        rw [hspec]
        exact nat_max_merge s.maxDepth s.currentDepth (specNesting n) (specForest f)
end

/-- C4: the visitor's `max_depth` equals the maximum simultaneous nesting
depth of conditional, loop, exception-handling and resource-scope constructs
along any path (the counter is restored on exit, so it is not a running
total); this value is what the record stores under `max_nesting`; in
particular two sibling non-nested `if` blocks at top level yield depth 1,
not 2. -/
theorem c4_max_nesting_is_max_depth :
    (∀ t : PyNode, (visitNode initVState t).maxDepth = specNesting t) ∧
      (∀ (t : PyNode) (r : Option RawMetrics) (cc : Option (List ℚ)),
        List.lookup "max_nesting" (compute_python_metrics ⟨some t, r, cc⟩)
          = some (some ((specNesting t : ℚ)))) ∧
      (visitNode initVState
        (.node .otherK
          (.cons (.node .ifK .nil) (.cons (.node .ifK .nil) .nil)))).maxDepth = 1 ∧
      specNesting
        (.node .otherK
          (.cons (.node .ifK .nil) (.cons (.node .ifK .nil) .nil))) = 1 := by
  have hmain : ∀ t : PyNode, (visitNode initVState t).maxDepth = specNesting t := by
    intro t
    have h := (visitNode_depth t initVState (le_refl 0)).2
    simpa [initVState] using h
  refine ⟨hmain, ?_, by decide, by decide⟩
  intro t r cc
  have hfst : List.lookup "max_nesting" (compute_python_metrics ⟨some t, r, cc⟩)
      = some (some (((visitNode initVState t).maxDepth : ℚ))) := rfl
  rw [hfst, hmain t]

theorem foldl_min_le_init {α : Type} [LinearOrder α] :
    ∀ (xs : List α) (a : α), xs.foldl min a ≤ a := by
  intro xs
  induction xs with
  | nil => intro a; exact le_refl a
  | cons y ys ih =>
      intro a
      exact le_trans (ih (min a y)) (min_le_left a y)

theorem foldl_min_mem {α : Type} [LinearOrder α] :
    ∀ (xs : List α) (a : α), xs.foldl min a ∈ a :: xs := by
  intro xs
  induction xs with
  | nil => intro a; simp
  | cons y ys ih =>
      intro a
      have h := ih (min a y)
      simp only [List.foldl_cons, List.mem_cons] at h ⊢
      rcases h with h1 | h1
      · rcases min_choice a y with hm | hm
        · exact Or.inl (h1.trans hm)
        · exact Or.inr (Or.inl (h1.trans hm))
      · exact Or.inr (Or.inr h1)

theorem foldl_min_le {α : Type} [LinearOrder α] :
    ∀ (xs : List α) (a v : α), v ∈ a :: xs → xs.foldl min a ≤ v := by
  intro xs
  induction xs with
  | nil =>
      intro a v hv
      simp only [List.mem_singleton] at hv
      exact le_of_eq hv.symm
  | cons y ys ih =>
      intro a v hv
      simp only [List.mem_cons] at hv
      simp only [List.foldl_cons]
      rcases hv with h1 | h1 | h1
      · exact le_trans
          (le_trans (foldl_min_le_init ys (min a y)) (min_le_left a y))
          (le_of_eq h1.symm)
      · exact le_trans
          (le_trans (foldl_min_le_init ys (min a y)) (min_le_right a y))
          (le_of_eq h1.symm)
      · exact ih (min a y) v (List.mem_cons_of_mem _ h1)

theorem foldl_max_ge_init {α : Type} [LinearOrder α] :
    ∀ (xs : List α) (a : α), a ≤ xs.foldl max a := by
  intro xs
  induction xs with
  | nil => intro a; exact le_refl a
  | cons y ys ih =>
      intro a
      exact le_trans (le_max_left a y) (ih (max a y))

theorem foldl_max_mem {α : Type} [LinearOrder α] :
    ∀ (xs : List α) (a : α), xs.foldl max a ∈ a :: xs := by
  intro xs
  induction xs with
  | nil => intro a; simp
  | cons y ys ih =>
      intro a
      have h := ih (max a y)
      simp only [List.foldl_cons, List.mem_cons] at h ⊢
      rcases h with h1 | h1
      · rcases max_choice a y with hm | hm
        · exact Or.inl (h1.trans hm)
        · exact Or.inr (Or.inl (h1.trans hm))
      · exact Or.inr (Or.inr h1)

theorem foldl_max_ge {α : Type} [LinearOrder α] :
    ∀ (xs : List α) (a v : α), v ∈ a :: xs → v ≤ xs.foldl max a := by
  intro xs
  induction xs with
  | nil =>
      intro a v hv
      simp only [List.mem_singleton] at hv
      exact le_of_eq hv
  | cons y ys ih =>
      intro a v hv
      simp only [List.mem_cons] at hv
      simp only [List.foldl_cons]
      rcases hv with h1 | h1 | h1
      · exact le_trans (le_of_eq h1)
          (le_trans (le_max_left a y) (foldl_max_ge_init ys (max a y)))
      · exact le_trans (le_of_eq h1)
          (le_trans (le_max_right a y) (foldl_max_ge_init ys (max a y)))
      · exact ih (max a y) v (List.mem_cons_of_mem _ h1)

/-- C2: for each metric key the aggregator computes min, arithmetic mean and
max over exactly the files with a present value for that key (absent values
leave the sample); all three aggregates are absent precisely when the sample
is empty — in particular for a missing, `None` or empty file list — a
singleton sample `[v]` yields `v` for all three, and the sample `[2,4,6]`
for a key yields min 2, mean 4 and max 6 in the full aggregate record. -/
theorem c2_aggregate_min_avg_max :
    (∀ (files : List MetricRecord) (k : String),
        aggForKey files k = (none, none, none) ↔ presentValues files k = []) ∧
      (∀ (files : List MetricRecord) (k : String) (x : ℚ) (xs : List ℚ),
        presentValues files k = x :: xs →
          ∃ mn av mx, aggForKey files k = (some mn, some av, some mx) ∧
            mn ∈ x :: xs ∧ mx ∈ x :: xs ∧
            (∀ v ∈ x :: xs, mn ≤ v ∧ v ≤ mx) ∧
            av * ((x :: xs).length : ℚ) = (x :: xs).sum) ∧
      (∀ (files : List MetricRecord) (k : String) (v : ℚ),
        presentValues files k = [v] →
          aggForKey files k = (some v, some v, some v)) ∧
      ((aggregate_file_metrics none).all (fun p => p.2.isNone) = true ∧
        (aggregate_file_metrics (some [])).all (fun p => p.2.isNone) = true) ∧
      (List.lookup "min_loc"
          (aggregate_file_metrics
            (some [[("loc", some 2)], [("loc", some 4)], [("loc", some 6)]]))
          = some (some 2) ∧
        List.lookup "avg_loc"
          (aggregate_file_metrics
            (some [[("loc", some 2)], [("loc", some 4)], [("loc", some 6)]]))
          = some (some 4) ∧
        List.lookup "max_loc"
          (aggregate_file_metrics
            (some [[("loc", some 2)], [("loc", some 4)], [("loc", some 6)]]))
          = some (some 6) ∧
        List.lookup "min_max_cc"
          (aggregate_file_metrics
            (some [[("loc", some 2)], [("loc", some 4)], [("loc", some 6)]]))
          = some none) := by
  refine ⟨?_, ?_, ?_, ⟨by decide, by decide⟩, by decide, ?_, by decide, by decide⟩
  · intro files k
    cases h : presentValues files k with
    | nil => simp [aggForKey, h]
    | cons x xs => simp [aggForKey, h]
  · intro files k x xs h
    refine ⟨xs.foldl min x, (x :: xs).sum / (((x :: xs).length : ℚ)), xs.foldl max x,
      by simp [aggForKey, h], foldl_min_mem xs x, foldl_max_mem xs x,
      fun v hv => ⟨foldl_min_le xs x v hv, foldl_max_ge xs x v hv⟩, ?_⟩
    have hlen : (((x :: xs).length : Nat) : ℚ) ≠ 0 := by
      rw [List.length_cons]
      exact_mod_cast Nat.succ_ne_zero xs.length
    exact div_mul_cancel₀ _ hlen
  · intro files k v h
    simp [aggForKey, h]
  · have h1 : List.lookup "avg_loc"
        (aggregate_file_metrics
          (some [[("loc", some 2)], [("loc", some 4)], [("loc", some 6)]]))
        = some ((aggForKey [[("loc", some 2)], [("loc", some 4)], [("loc", some 6)]] "loc").2.1) := rfl
    have h2 : presentValues [[("loc", some 2)], [("loc", some 4)], [("loc", some 6)]] "loc"
        = [2, 4, 6] := rfl
    rw [h1]
    rw [show (aggForKey [[("loc", some 2)], [("loc", some 4)], [("loc", some 6)]] "loc").2.1
        = some (((2 : ℚ) + (4 + (6 + 0))) / ((3 : Nat) : ℚ)) by
      simp [aggForKey, h2]]
    norm_num

/-- Witness for C2 at a single file with a single present value. -/
theorem c2_aggregate_min_avg_max_witness :
    aggForKey [[("loc", some (5 : ℚ))]] "loc" = (some 5, some 5, some 5) :=
  c2_aggregate_min_avg_max.2.2.1 [[("loc", some 5)]] "loc" 5 (by decide)

theorem prevOk_iff (p : Option Char) : prevOk p = true ↔ BoundOk p := by
  cases p <;> simp [prevOk, BoundOk]

theorem lastOr_cons (prev : Option Char) (c : Char) (pre : List Char) :
    lastOr prev (c :: pre) = lastOr (some c) pre := by
  cases pre with
  | nil => simp [lastOr]
  | cons d ds =>
      cases h : (d :: ds).getLast? with
      | none => simp at h
      | some e => simp [lastOr, List.getLast?_cons_cons, h]

theorem matchWordHere_iff :
    ∀ (w cs : List Char),
      matchWordHere w cs = true ↔ ∃ post, cs = w ++ post ∧ BoundOk post.head? := by
  intro w
  induction w with
  | nil =>
      intro cs
      cases cs with
      | nil =>
          simp [matchWordHere, BoundOk]
      | cons c cs' =>
          simp [matchWordHere, BoundOk]
  | cons a ws ih =>
      intro cs
      cases cs with
      | nil => simp [matchWordHere]
      | cons c cs' =>
          simp only [matchWordHere, Bool.and_eq_true, beq_iff_eq, ih cs',
            List.cons_append, List.cons.injEq]
          constructor
          · rintro ⟨hac, post, hp, hb⟩
            exact ⟨post, ⟨hac.symm, hp⟩, hb⟩
          · rintro ⟨post, ⟨hca, hp⟩, hb⟩
            exact ⟨hca.symm, post, hp, hb⟩

theorem searchFrom_iff :
    ∀ (cs w : List Char) (prev : Option Char),
      searchFrom w prev cs = true ↔
        ∃ pre post, cs = pre ++ w ++ post ∧ BoundOk (lastOr prev pre) ∧
          BoundOk post.head? := by
  intro cs
  induction cs with
  | nil =>
      intro w prev
      cases w with
      | nil =>
          simp only [searchFrom, Bool.and_eq_true, prevOk_iff, matchWordHere_iff]
          constructor
          · rintro ⟨hb, post, hp, hb2⟩
            exact ⟨[], [], by simp, by simpa [lastOr] using hb, by simp [BoundOk]⟩
          · rintro ⟨pre, post, hsplit, hb1, hb2⟩
            have h0 : pre = [] := by
              cases pre with
              | nil => rfl
              | cons a l => simp at hsplit
            subst h0
            refine ⟨by simpa [lastOr] using hb1, [], by simp, by simp [BoundOk]⟩
      | cons a ws =>
          simp only [searchFrom, Bool.and_eq_true, matchWordHere]
          constructor
          · rintro ⟨_, h⟩; cases h
          · rintro ⟨pre, post, hsplit, hb1, hb2⟩
            exfalso
            cases pre <;> simp at hsplit
  | cons c rest ih =>
      intro w prev
      simp only [searchFrom, Bool.or_eq_true, Bool.and_eq_true, prevOk_iff,
        matchWordHere_iff, ih w (some c)]
      constructor
      · rintro (⟨hb, post, hsplit, hb2⟩ | ⟨pre, post, hsplit, hb1, hb2⟩)
        · exact ⟨[], post, by simpa using hsplit, by simpa [lastOr] using hb, hb2⟩
        · exact ⟨c :: pre, post, by simp [hsplit], by rwa [lastOr_cons], hb2⟩
      · rintro ⟨pre, post, hsplit, hb1, hb2⟩
        cases pre with
        | nil =>
            left
            exact ⟨by simpa [lastOr] using hb1, post, by simpa using hsplit, hb2⟩
        | cons c' pre' =>
            right
            simp only [List.cons_append, List.cons.injEq] at hsplit
            obtain ⟨h1, h2⟩ := hsplit
            subst h1
            exact ⟨pre', post, h2, by rwa [lastOr_cons] at hb1, hb2⟩

theorem reSearchWord_iff (p : String) (cs : List Char) :
    reSearchWord p cs = true ↔ WholeWordMatch p.toList cs :=
  searchFrom_iff cs p.toList none

theorem contains_keywords_iff (t : String) (pats : List String) :
    contains_keywords_regex (some t) pats = 1 ↔
      t ≠ "" ∧ ∃ p ∈ pats, WholeWordMatch p.toList (lowerChars t) := by
  by_cases ht : t = ""
  · simp [contains_keywords_regex, ht]
  · simp only [contains_keywords_regex, if_neg ht]
    by_cases hb : pats.any (fun p => reSearchWord p (lowerChars t)) = true
    · rw [if_pos hb]
      constructor
      · intro _
        rw [List.any_eq_true] at hb
        obtain ⟨p, hp, hs⟩ := hb
        exact ⟨ht, p, hp, (reSearchWord_iff p (lowerChars t)).mp hs⟩
      · intro _; rfl
    · rw [if_neg hb]
      constructor
      · intro h; exact absurd h (by decide)
      · rintro ⟨-, p, hp, hw⟩
        exact absurd
          (List.any_eq_true.mpr ⟨p, hp, (reSearchWord_iff p (lowerChars t)).mpr hw⟩) hb

/-- C9: each of the three labels is computed independently from the title by
case-insensitive whole-word matching against its own fixed vocabulary — the
label is set exactly when some vocabulary word occurs in the lowered title
with a word boundary on both sides — so a title matching several
vocabularies sets several labels; in particular "Fix bug in parser" yields
is_bugfix 1, is_refactor 0, is_feature 0, while "Fix and add tests" sets
both the bugfix and the feature label. -/
theorem c9_keyword_labels :
    (∀ t : String,
      ((prLabels (some t)).1 = 1 ↔
        t ≠ "" ∧ ∃ p ∈ bugfix_patterns, WholeWordMatch p.toList (lowerChars t)) ∧
      ((prLabels (some t)).2.1 = 1 ↔
        t ≠ "" ∧ ∃ p ∈ refactor_patterns, WholeWordMatch p.toList (lowerChars t)) ∧
      ((prLabels (some t)).2.2 = 1 ↔
        t ≠ "" ∧ ∃ p ∈ feature_patterns, WholeWordMatch p.toList (lowerChars t))) ∧
      prLabels (some "Fix bug in parser") = (1, 0, 0) ∧
      prLabels (some "Fix and add tests") = (1, 0, 1) ∧
      prLabels none = (0, 0, 0) := by
  refine ⟨fun t =>
    ⟨contains_keywords_iff t bugfix_patterns,
     contains_keywords_iff t refactor_patterns,
     contains_keywords_iff t feature_patterns⟩, by decide, by decide, rfl⟩

theorem doSave_fields (env : Env) (st : OrchState) :
    (doSave env st).counter = st.counter ∧
      (doSave env st).processed = st.processed ∧
      (doSave env st).dispatched = st.dispatched ∧
      (doSave env st).passes = st.passes ∧
      (doSave env st).done = st.done ∧
      (doSave env st).skippedNoPython = st.skippedNoPython := by
  by_cases hcond : (env.saveOk (st.csvCounter + 1) && !st.batch.isEmpty) = true
  · simp [doSave, hcond]
  · simp [doSave, hcond]

theorem doSave_batch_cases (env : Env) (st : OrchState) :
    ((doSave env st).batch = st.batch ∧ (doSave env st).saved = st.saved) ∨
      ((doSave env st).batch = [] ∧ (doSave env st).saved = st.saved ++ [st.batch]) := by
  by_cases hcond : (env.saveOk (st.csvCounter + 1) && !st.batch.isEmpty) = true
  · right; simp [doSave, hcond]
  · left; simp [doSave, hcond]

/-- C7: when a batch write fails the checkpoint is not advanced — the cursor
keeps its value, no durable checkpoint is written (so the new identifiers are
not durably marked processed), the satisfied-target counter is untouched —
and the in-memory batch is retained for a later retry; conversely a durable
checkpoint write happens only on a successful write of a non-empty batch,
which appends that batch to the persisted output. -/
theorem c7_save_failure_checkpoint_unchanged :
    ∀ (env : Env) (st : OrchState),
      (env.saveOk (st.csvCounter + 1) = false →
        (doSave env st).batch = st.batch ∧
        (doSave env st).cursor = st.cursor ∧
        (doSave env st).ckpts = st.ckpts ∧
        (doSave env st).saved = st.saved ∧
        (doSave env st).processed = st.processed ∧
        (doSave env st).counter = st.counter) ∧
      ((doSave env st).ckpts ≠ st.ckpts →
        env.saveOk (st.csvCounter + 1) = true ∧ st.batch ≠ [] ∧
        (doSave env st).saved = st.saved ++ [st.batch]) := by
  intro env st
  constructor
  · intro h
    simp [doSave, h]
  · intro h
    cases hcond : (env.saveOk (st.csvCounter + 1) && !st.batch.isEmpty) with
    | false =>
        exfalso
        apply h
        simp [doSave, hcond]
    | true =>
        rw [Bool.and_eq_true] at hcond
        obtain ⟨h1, h2⟩ := hcond
        have hcond : (env.saveOk (st.csvCounter + 1) && !st.batch.isEmpty) = true := by
          rw [Bool.and_eq_true]; exact ⟨h1, h2⟩
        refine ⟨h1, ?_, ?_⟩
        · intro hnil
          rw [hnil] at h2
          simp at h2
        · simp [doSave, hcond]

/-- Witness for C7: a failing write retains a one-element batch and writes
no checkpoint. -/
theorem c7_save_failure_checkpoint_unchanged_witness :
    (doSave ⟨[], fun _ => none, fun _ => false⟩
        { initState (some 10) [] 0 0 with batch := [⟨3, some ["a.py"]⟩] }).batch
        = [(⟨3, some ["a.py"]⟩ : PRData)] ∧
      (doSave ⟨[], fun _ => none, fun _ => false⟩
        { initState (some 10) [] 0 0 with batch := [⟨3, some ["a.py"]⟩] }).ckpts = [] :=
  ⟨((c7_save_failure_checkpoint_unchanged ⟨[], fun _ => none, fun _ => false⟩
      { initState (some 10) [] 0 0 with batch := [⟨3, some ["a.py"]⟩] }).1 rfl).1,
   ((c7_save_failure_checkpoint_unchanged ⟨[], fun _ => none, fun _ => false⟩
      { initState (some 10) [] 0 0 with batch := [⟨3, some ["a.py"]⟩] }).1 rfl).2.2.1⟩

/-- C6: for a completed enrichment result, an item with no `.py` file is
marked processed (so it is never re-fetched) but excluded from the pending
batch and not counted toward the target, while an item with a `.py` file is
marked processed, appended to the pending batch (which a full buffer may
immediately flush into the persisted output) and counted toward the
target. -/
theorem c6_no_python_processed_not_counted :
    ∀ (env : Env) (st : OrchState) (n : Nat) (files : Option (List String)),
      env.fetchFiles n = some files →
        (hasPythonFiles ⟨n, files⟩ = false →
          handleItem env st n =
            { st with processed := n :: st.processed,
                      skippedNoPython := st.skippedNoPython + 1 }) ∧
        (hasPythonFiles ⟨n, files⟩ = true →
          (handleItem env st n).counter = st.counter + 1 ∧
          (handleItem env st n).processed = n :: st.processed ∧
          (st.batch.length + 1 < SAVE_EVERY →
            (handleItem env st n).batch = st.batch ++ [⟨n, files⟩]) ∧
          ((⟨n, files⟩ : PRData) ∈ (handleItem env st n).batch ∨
            ∃ b ∈ (handleItem env st n).saved, (⟨n, files⟩ : PRData) ∈ b)) := by
  intro env st n files hf
  constructor
  · intro hnp
    simp [handleItem, hf, hnp]
  · intro hp
    by_cases hlen : SAVE_EVERY ≤ st.batch.length + 1
    · have hred : handleItem env st n = doSave env
          { st with batch := st.batch ++ [⟨n, files⟩],
                    processed := n :: st.processed, counter := st.counter + 1 } := by
        simp only [handleItem, hf]
        rw [if_neg (by simp [hp]), if_pos (by simpa using hlen)]
      rw [hred]
      obtain ⟨hcounter, hprocessed, -⟩ := doSave_fields env
        { st with batch := st.batch ++ [⟨n, files⟩],
                  processed := n :: st.processed, counter := st.counter + 1 }
      refine ⟨hcounter, hprocessed, ?_, ?_⟩
      · intro hlt
        exfalso
        omega
      · rcases doSave_batch_cases env
          { st with batch := st.batch ++ [⟨n, files⟩],
                    processed := n :: st.processed, counter := st.counter + 1 } with
          ⟨hb, -⟩ | ⟨-, hs⟩
        · left
          rw [hb]
          simp
        · right
          refine ⟨st.batch ++ [⟨n, files⟩], ?_, by simp⟩
          rw [hs]
          simp
    · have hred : handleItem env st n =
          { st with batch := st.batch ++ [⟨n, files⟩],
                    processed := n :: st.processed, counter := st.counter + 1 } := by
        simp only [handleItem, hf]
        rw [if_neg (by simp [hp]), if_neg (by simpa using hlen)]
      rw [hred]
      exact ⟨rfl, rfl, fun _ => rfl, Or.inl (by simp)⟩

/-- Witness for C6: a completed item without Python files at a concrete
state, and a completed item with a Python file at the same state. -/
theorem c6_no_python_processed_not_counted_witness :
    handleItem ⟨[], fun _ => some (some ["readme.md"]), fun _ => true⟩
        (initState (some 10) [] 0 0) 7 =
      { initState (some 10) [] 0 0 with processed := [7], skippedNoPython := 1 } ∧
      (handleItem ⟨[], fun _ => some (some ["a.py"]), fun _ => true⟩
        (initState (some 10) [] 0 0) 7).counter = 1 :=
  ⟨(c6_no_python_processed_not_counted
      ⟨[], fun _ => some (some ["readme.md"]), fun _ => true⟩
      (initState (some 10) [] 0 0) 7 (some ["readme.md"]) rfl).1 (by decide),
   ((c6_no_python_processed_not_counted
      ⟨[], fun _ => some (some ["a.py"]), fun _ => true⟩
      (initState (some 10) [] 0 0) 7 (some ["a.py"]) rfl).2 (by decide)).1⟩

theorem handleItem_done (env : Env) (st : OrchState) (n : Nat) :
    (handleItem env st n).done = st.done := by
  cases hf : env.fetchFiles n with
  | none => simp [handleItem, hf]
  | some files =>
      simp only [handleItem, hf]
      split
      · rfl
      · split
        · exact (doSave_fields env _).2.2.2.2.1
        · rfl

theorem processItems_done (env : Env) :
    ∀ (l : List PRSumm) (st : OrchState), (processItems env st l).done = st.done := by
  intro l
  induction l with
  | nil => intro st; rfl
  | cons pr rest ih =>
      intro st
      simp only [processItems]
      split
      · exact handleItem_done env st pr.number
      · exact (ih _).trans (handleItem_done env st pr.number)

theorem saveRemaining_done (env : Env) (st : OrchState) :
    (saveRemaining env st).done = st.done := by
  unfold saveRemaining
  split
  · exact (doSave_fields env st).2.2.2.2.1
  · rfl

theorem lowerCursorFromProcessed_done (st : OrchState) :
    (lowerCursorFromProcessed st).done = st.done := by
  unfold lowerCursorFromProcessed
  split
  · split
    · rfl
    · split <;> rfl
  · rfl

theorem loopIter_inl_done (env : Env) (st st2 : OrchState)
    (h : loopIter env st = .inl st2) : st2.done = st.done := by
  simp only [loopIter] at h
  split at h
  · simp at h
  · split at h
    · injection h with h2
      rw [← h2]
    · split at h
      · simp at h
      · injection h with h2
        rw [← h2, lowerCursorFromProcessed_done, saveRemaining_done,
          processItems_done]

theorem loopIter_inr_char (env : Env) (st st2 : OrchState)
    (h : loopIter env st = .inr st2) :
    st2.done = true ∧
      (TARGET_PRS_WITH_PYTHON ≤ st2.counter ∨ st2.passes.getLast? = some []) := by
  simp only [loopIter] at h
  split at h
  · next hempty =>
      injection h with h2
      rw [← h2]
      refine ⟨rfl, Or.inr ?_⟩
      show (st.passes ++ [fetch_pr_list_descending env st.cursor]).getLast? = some []
      rw [hempty, List.getLast?_concat]
  · split at h
    · simp at h
    · split at h
      · next htarget =>
          injection h with h2
          rw [← h2]
          exact ⟨rfl, Or.inl htarget⟩
      · simp at h

theorem runLoop_done_char (env : Env) :
    ∀ (fuel : Nat) (st : OrchState), st.done = false →
      (runLoop env fuel st).done = true →
      TARGET_PRS_WITH_PYTHON ≤ (runLoop env fuel st).counter ∨
        (runLoop env fuel st).passes.getLast? = some [] := by
  intro fuel
  induction fuel with
  | zero =>
      intro st h0 h1
      simp only [runLoop] at h1
      rw [h0] at h1
      cases h1
  | succ n ih =>
      intro st h0 h1
      simp only [runLoop] at h1 ⊢
      by_cases hc : st.counter < TARGET_PRS_WITH_PYTHON
      · rw [if_pos hc] at h1 ⊢
        cases hli : loopIter env st with
        | inl st2 =>
            rw [hli] at h1
            exact ih st2 ((loopIter_inl_done env st st2 hli).trans h0) h1
        | inr st2 =>
            rw [hli] at h1
            exact (loopIter_inr_char env st st2 hli).2
      · rw [if_neg hc] at h1 ⊢
        left
        show TARGET_PRS_WITH_PYTHON ≤ st.counter
        omega

/-- C8 (claim as stated is refuted): with an empty listing on the very first
pass the loop terminates after a single listing pass and with the target
unreached — so termination happens although the satisfied-target counter has
not reached the target and although no two consecutive passes (there was
only one) returned zero new unprocessed items. -/
theorem c8_counterexample :
    (runLoop ⟨[], fun _ => none, fun _ => true⟩ 1
        (initState (some 10) [] 0 0)).done = true ∧
      (runLoop ⟨[], fun _ => none, fun _ => true⟩ 1
        (initState (some 10) [] 0 0)).counter < TARGET_PRS_WITH_PYTHON ∧
      (runLoop ⟨[], fun _ => none, fun _ => true⟩ 1
        (initState (some 10) [] 0 0)).passes = [[]] :=
  ⟨by decide, by decide, by decide⟩

/-- C8 (amended): the per-repository loop terminates exactly when the
satisfied-target counter reaches the configured target or when a listing
pass returns zero items — source exhaustion is detected on the first empty
listing, not after two passes — while a pass that returns items that are all
already processed does not terminate the loop: the cursor is lowered and
listing continues with a further pass. -/
theorem c8_termination_amended :
    (∀ (env : Env) (fuel : Nat) (C : Int) (P : List Nat) (c0 cs0 : Nat),
        (runLoop env fuel (initState (some C) P c0 cs0)).done = true →
          TARGET_PRS_WITH_PYTHON ≤
              (runLoop env fuel (initState (some C) P c0 cs0)).counter ∨
            (runLoop env fuel (initState (some C) P c0 cs0)).passes.getLast?
              = some []) ∧
      (runLoop ⟨[[⟨5, none⟩]], fun _ => none, fun _ => true⟩ 2
          (initState (some 10) [5] 0 0)).done = true ∧
      (runLoop ⟨[[⟨5, none⟩]], fun _ => none, fun _ => true⟩ 2
          (initState (some 10) [5] 0 0)).passes = [[⟨5, none⟩], []] ∧
      (runLoop ⟨[[⟨5, none⟩]], fun _ => none, fun _ => true⟩ 2
          (initState (some 10) [5] 0 0)).counter = 0 := by
  refine ⟨?_, by decide, by decide, by decide⟩
  intro env fuel C P c0 cs0
  exact runLoop_done_char env fuel (initState (some C) P c0 cs0) rfl

/-- Witness for C8 (amended) at a concrete environment whose first listing
is empty. -/
theorem c8_termination_amended_witness :
    TARGET_PRS_WITH_PYTHON ≤
        (runLoop ⟨[], fun _ => none, fun _ => true⟩ 1
          (initState (some 10) [] 0 0)).counter ∨
      (runLoop ⟨[], fun _ => none, fun _ => true⟩ 1
        (initState (some 10) [] 0 0)).passes.getLast? = some [] :=
  c8_termination_amended.1 ⟨[], fun _ => none, fun _ => true⟩ 1 10 [] 0 0 (by decide)

theorem fetchPages_mem (cursor : Option Int) (maxPrs : Nat) :
    ∀ (pages : List (List PRSumm)) (acc : List PRSumm) (pr : PRSumm),
      pr ∈ fetchPages cursor maxPrs pages acc →
        pr ∈ acc ∨ keepListed cursor pr = true := by
  intro pages
  induction pages with
  | nil => intro acc pr h; exact Or.inl h
  | cons page rest ih =>
      intro acc pr h
      simp only [fetchPages] at h
      split at h
      · exact Or.inl h
      · split at h
        · exact Or.inl h
        · rcases ih _ pr h with h1 | h1
          · rcases List.mem_append.mp h1 with h2 | h2
            · exact Or.inl h2
            · exact Or.inr (List.mem_filter.mp (List.take_subset _ _ h2)).2
          · exact Or.inr h1

theorem fetch_lt_cursor (env : Env) (c : Int) (pr : PRSumm)
    (h : pr ∈ fetch_pr_list_descending env (some c)) :
    (pr.number : Int) < c ∧ pr.mergedAt = none := by
  rcases fetchPages_mem (some c) FETCH_BATCH_SIZE env.pages [] pr h with h1 | h1
  · cases h1
  · simp only [keepListed, Bool.and_eq_true] at h1
    obtain ⟨ha, hb⟩ := h1
    exact ⟨of_decide_eq_true ha, eq_of_beq hb⟩

theorem pyMinNat_mem (l : List Nat) (hne : l ≠ []) : pyMinNat l ∈ l := by
  cases l with
  | nil => exact absurd rfl hne
  | cons x xs => exact foldl_min_mem xs x

theorem doSave_inv (env : Env) (C : Int) (P : List Nat) (st : OrchState)
    (h : StInv C P st) : StInv C P (doSave env st) := by
  obtain ⟨⟨c, hc, hcC⟩, hP, hbatch, hsaved, hdisp⟩ := h
  by_cases hcond : (env.saveOk (st.csvCounter + 1) && !st.batch.isEmpty) = true
  · have hne : st.batch ≠ [] := by
      rw [Bool.and_eq_true] at hcond
      intro h0
      rw [h0] at hcond
      simp at hcond
    have hlow : pyMinNat (st.batch.map (fun d => d.number)) ∈
        st.batch.map (fun d => d.number) := by
      apply pyMinNat_mem
      simp [hne]
    obtain ⟨d0, hd0, hd0min⟩ := List.mem_map.mp hlow
    have hd0C : (d0.number : Int) < C := (hbatch d0 hd0).1
    have hred : doSave env st =
        { st with
            csvCounter := st.csvCounter + 1,
            cursor := some ((pyMinNat (st.batch.map (fun d => d.number)) : Int)),
            ckpts := st.ckpts ++
              [{ processed := st.processed, counter := st.counter,
                 csvCounter := st.csvCounter + 1,
                 cursor := some ((pyMinNat (st.batch.map (fun d => d.number)) : Int)) }],
            saved := st.saved ++ [st.batch],
            batch := [] } := by
      simp [doSave, hcond]
    rw [hred]
    refine ⟨⟨(pyMinNat (st.batch.map (fun d => d.number)) : Int), rfl, ?_⟩,
      hP, by simp, ?_, hdisp⟩
    · rw [← hd0min]
      omega
    · intro b hb d hd
      rcases List.mem_append.mp hb with h1 | h1
      · exact hsaved b h1 d hd
      · rw [List.mem_singleton] at h1
        subst h1
        exact hbatch d hd
  · have hred : doSave env st = { st with csvCounter := st.csvCounter + 1 } := by
      simp [doSave, hcond]
    rw [hred]
    exact ⟨⟨c, hc, hcC⟩, hP, hbatch, hsaved, hdisp⟩

theorem handleItem_inv (env : Env) (C : Int) (P : List Nat) (st : OrchState)
    (n : Nat) (h : StInv C P st) (hnC : (n : Int) < C) (hnP : n ∉ P) :
    StInv C P (handleItem env st n) := by
  obtain ⟨⟨c, hc, hcC⟩, hP, hbatch, hsaved, hdisp⟩ := h
  cases hf : env.fetchFiles n with
  | none =>
      simp only [handleItem, hf]
      exact ⟨⟨c, hc, hcC⟩, hP, hbatch, hsaved, hdisp⟩
  | some files =>
      simp only [handleItem, hf]
      split
      · exact ⟨⟨c, hc, hcC⟩, fun m hm => List.mem_cons_of_mem n (hP m hm),
          hbatch, hsaved, hdisp⟩
      · have hst2 : StInv C P
            { st with batch := st.batch ++ [⟨n, files⟩],
                      processed := n :: st.processed, counter := st.counter + 1 } := by
          refine ⟨⟨c, hc, hcC⟩, fun m hm => List.mem_cons_of_mem n (hP m hm),
            ?_, hsaved, hdisp⟩
          intro d hd
          rcases List.mem_append.mp hd with h1 | h1
          · exact hbatch d h1
          · rw [List.mem_singleton] at h1
            subst h1
            exact ⟨hnC, hnP⟩
        split
        · exact doSave_inv env C P _ hst2
        · exact hst2

theorem processItems_inv (env : Env) (C : Int) (P : List Nat) :
    ∀ (l : List PRSumm) (st : OrchState), StInv C P st →
      (∀ pr ∈ l, (pr.number : Int) < C ∧ pr.number ∉ P) →
      StInv C P (processItems env st l) := by
  intro l
  induction l with
  | nil => intro st h _; exact h
  | cons pr rest ih =>
      intro st h hl
      obtain ⟨h1, h2⟩ := hl pr (List.mem_cons_self pr rest)
      simp only [processItems]
      split
      · exact handleItem_inv env C P st pr.number h h1 h2
      · exact ih _ (handleItem_inv env C P st pr.number h h1 h2)
          (fun q hq => hl q (List.mem_cons_of_mem pr hq))

theorem saveRemaining_inv (env : Env) (C : Int) (P : List Nat) (st : OrchState)
    (h : StInv C P st) : StInv C P (saveRemaining env st) := by
  unfold saveRemaining
  split
  · exact doSave_inv env C P st h
  · exact h

theorem lowerCursorFromProcessed_inv (C : Int) (P : List Nat) (st : OrchState)
    (h : StInv C P st) : StInv C P (lowerCursorFromProcessed st) := by
  obtain ⟨⟨c, hc, hcC⟩, hP, hbatch, hsaved, hdisp⟩ := h
  unfold lowerCursorFromProcessed
  by_cases hcond : st.processed ≠ [] ∧ st.batch = []
  · rw [if_pos hcond, hc]
    dsimp only
    by_cases hlt : (pyMinNat st.processed : Int) < c
    · rw [if_pos hlt]
      exact ⟨⟨(pyMinNat st.processed : Int), rfl, by omega⟩, hP, hbatch, hsaved, hdisp⟩
    · rw [if_neg hlt]
      exact ⟨⟨c, hc, hcC⟩, hP, hbatch, hsaved, hdisp⟩
  · rw [if_neg hcond]
    exact ⟨⟨c, hc, hcC⟩, hP, hbatch, hsaved, hdisp⟩

theorem StInv_done (C : Int) (P : List Nat) (st : OrchState) (h : StInv C P st) :
    StInv C P { st with done := true } := by
  obtain ⟨⟨c, hc, hcC⟩, hP, hb, hs, hd⟩ := h
  exact ⟨⟨c, hc, hcC⟩, hP, hb, hs, hd⟩

theorem loopIter_inv (env : Env) (C : Int) (P : List Nat) (st : OrchState)
    (h : StInv C P st) :
    (∀ st2, loopIter env st = .inl st2 → StInv C P st2) ∧
      (∀ st2, loopIter env st = .inr st2 → StInv C P st2) := by
  obtain ⟨⟨c, hc, hcC⟩, hP, hbatch, hsaved, hdisp⟩ := h
  have hfetch : ∀ pr ∈ fetch_pr_list_descending env st.cursor,
      (pr.number : Int) < c ∧ pr.mergedAt = none := by
    intro pr hpr
    rw [hc] at hpr
    exact fetch_lt_cursor env c pr hpr
  have hitems : ∀ pred : PRSumm → Bool,
      ∀ pr ∈ (fetch_pr_list_descending env st.cursor).filter pred,
        (pr.number : Int) < C := by
    intro pred pr hpr
    have h1 := (hfetch pr (List.mem_filter.mp hpr).1).1
    omega
  constructor
  · intro st2 h2
    simp only [loopIter] at h2
    split at h2
    · simp at h2
    · rename_i hne
      split at h2
      · injection h2 with h2
        rw [← h2]
        refine ⟨⟨_, rfl, ?_⟩, hP, hbatch, hsaved, hdisp⟩
        have hmem : pyMinNat
            ((fetch_pr_list_descending env st.cursor).map (fun pr => pr.number)) ∈
            (fetch_pr_list_descending env st.cursor).map (fun pr => pr.number) := by
          apply pyMinNat_mem
          simpa using hne
        obtain ⟨pr, hpr, hprmin⟩ := List.mem_map.mp hmem
        have h1 := (hfetch pr hpr).1
        rw [← hprmin]
        omega
      · split at h2
        · simp at h2
        · injection h2 with h2
          rw [← h2]
          apply lowerCursorFromProcessed_inv
          apply saveRemaining_inv
          apply processItems_inv
          · refine ⟨⟨c, hc, hcC⟩, hP, hbatch, hsaved, ?_⟩
            intro n hn
            rcases List.mem_append.mp hn with h1 | h1
            · exact hdisp n h1
            · obtain ⟨pr, hpr, hprn⟩ := List.mem_map.mp h1
              have h3 := (hfetch pr (List.mem_filter.mp hpr).1).1
              rw [← hprn]
              omega
          · intro pr hpr
            have hmemf := List.mem_filter.mp hpr
            refine ⟨by have := (hfetch pr hmemf.1).1; omega, ?_⟩
            intro hmemP
            exact (of_decide_eq_true hmemf.2) (hP pr.number hmemP)
  · intro st2 h2
    simp only [loopIter] at h2
    split at h2
    · injection h2 with h2
      rw [← h2]
      exact StInv_done C P _ ⟨⟨c, hc, hcC⟩, hP, hbatch, hsaved, hdisp⟩
    · split at h2
      · simp at h2
      · split at h2
        · injection h2 with h2
          rw [← h2]
          apply StInv_done
          apply lowerCursorFromProcessed_inv
          apply saveRemaining_inv
          apply processItems_inv
          · refine ⟨⟨c, hc, hcC⟩, hP, hbatch, hsaved, ?_⟩
            intro n hn
            rcases List.mem_append.mp hn with h1 | h1
            · exact hdisp n h1
            · obtain ⟨pr, hpr, hprn⟩ := List.mem_map.mp h1
              have h3 := (hfetch pr (List.mem_filter.mp hpr).1).1
              rw [← hprn]
              omega
          · intro pr hpr
            have hmemf := List.mem_filter.mp hpr
            refine ⟨by have := (hfetch pr hmemf.1).1; omega, ?_⟩
            intro hmemP
            exact (of_decide_eq_true hmemf.2) (hP pr.number hmemP)
        · simp at h2

theorem runLoop_inv (env : Env) (C : Int) (P : List Nat) :
    ∀ (fuel : Nat) (st : OrchState), StInv C P st → StInv C P (runLoop env fuel st) := by
  intro fuel
  induction fuel with
  | zero => intro st h; exact h
  | succ n ih =>
      intro st h
      simp only [runLoop]
      by_cases hcnt : st.counter < TARGET_PRS_WITH_PYTHON
      · rw [if_pos hcnt]
        cases hli : loopIter env st with
        | inl st2 => exact ih st2 ((loopIter_inv env C P st h).1 st2 hli)
        | inr st2 => exact (loopIter_inv env C P st h).2 st2 hli
      · rw [if_neg hcnt]
        exact StInv_done C P st h

/-- C5: a run resumed from a checkpoint with cursor `C` and processed-set
`P` never emits a batch row (into any successfully written batch) whose
identifier belongs to `P` or reaches `C`, and never dispatches an enrichment
fetch for a listed pull request with identifier at or above `C` — listed
identifiers at or above the cursor are skipped client-side. -/
theorem c5_resumption_skips :
    ∀ (env : Env) (fuel : Nat) (C : Int) (P : List Nat) (c0 cs0 : Nat),
      (∀ b ∈ (runLoop env fuel (initState (some C) P c0 cs0)).saved,
        ∀ d ∈ b, d.number ∉ P ∧ (d.number : Int) < C) ∧
        (∀ n ∈ (runLoop env fuel (initState (some C) P c0 cs0)).dispatched,
          (n : Int) < C) := by
  intro env fuel C P c0 cs0
  have hinit : StInv C P (initState (some C) P c0 cs0) :=
    ⟨⟨C, rfl, le_refl C⟩, fun n hn => hn, by simp [initState], by simp [initState],
      by simp [initState]⟩
  obtain ⟨-, -, -, hs, hd⟩ := runLoop_inv env C P fuel _ hinit
  exact ⟨fun b hb d hdm => ⟨(hs b hb d hdm).2, (hs b hb d hdm).1⟩, hd⟩

/-- Witness for C5: a concrete resumed run that saves one batch containing
the single fetched record and dispatched one enrichment fetch. -/
theorem c5_resumption_skips_witness :
    ((3 : Nat) ∉ ([] : List Nat) ∧ ((3 : Nat) : Int) < 10) ∧ ((3 : Nat) : Int) < 10 :=
  ⟨(c5_resumption_skips ⟨[[⟨3, none⟩]], fun _ => some (some ["a.py"]), fun _ => true⟩
        2 10 [] 0 0).1 [⟨3, some ["a.py"]⟩] (by decide) ⟨3, some ["a.py"]⟩ (by decide),
   (c5_resumption_skips ⟨[[⟨3, none⟩]], fun _ => some (some ["a.py"]), fun _ => true⟩
        2 10 [] 0 0).2 3 (by decide)⟩
